import Mathlib

/-!
Verification of the Iceberg-style REST catalog service (`app/services/table.py`,
`app/services/namespace.py`, `app/api/tables.py`, `app/api/namespaces.py`,
`app/models/table.py`).

The Python service keeps its state in a relational backend; we embed each
table's rows as explicit Lean structures and each service function as a pure
function over them.  JSON blob columns are embedded structurally; a JSON field
that may be absent, explicitly null, or an integer is modelled by `JVal Int`
(Python distinguishes `"k" not in d` from `d["k"] is None`, and the two read
paths of the source treat them differently).  Database fetches without an
`ORDER BY` are modelled as the stored list order.
-/

namespace Catalog

/-- A JSON object field that can be absent, null, or carry a value.  Mirrors
the three states a key of a Python dict parsed from JSON can be in. -/
inductive JVal (α : Type) where
  | absent : JVal α
  | null : JVal α
  | val : α → JVal α
deriving DecidableEq, Repr

/-- Python's `d.get(k)`: both an absent key and an explicit null read as
`None`. -/
def JVal.get? {α : Type} : JVal α → Option α
  | .absent => none
  | .null => none
  | .val a => some a

/-- `"k" not in d or d["k"] is None` — the repair condition used on the load
path (`build_table_response`, `load_table`). -/
def JVal.isMissingOrNull {α : Type} : JVal α → Bool
  | .absent => true
  | .null => true
  | .val _ => false

/-- `"k" not in d` — the repair condition used by `_build_table_metadata`. -/
def JVal.isAbsent {α : Type} : JVal α → Bool
  | .absent => true
  | .null => false
  | .val _ => false

/-- A field of a stored schema JSON blob (`StructField` in `app/models/table.py`:
`id` is a required int). -/
structure StructFieldJ where
  id : Int
  name : String
deriving DecidableEq, Repr

/-- A stored `schema_json` blob: `schema-id` is optional in the Iceberg JSON. -/
structure SchemaJson where
  schemaId : JVal Int
  fields : List StructFieldJ
deriving DecidableEq, Repr

/-- A field of a stored partition-spec JSON blob (`PartitionField`):
`field-id` is optional. -/
structure PartFieldJ where
  fieldId : JVal Int
  sourceId : Int
  name : String
  transform : String
deriving DecidableEq, Repr

/-- A stored `spec_json` blob: `spec-id` is optional. -/
structure SpecJson where
  specId : JVal Int
  fields : List PartFieldJ
deriving DecidableEq, Repr

/-- A stored `order_json` blob (`SortOrder`: `order-id` is required). -/
structure SortOrderJson where
  orderId : Int
deriving DecidableEq, Repr

/-- Snapshot JSON as produced by pydantic `Snapshot.json(by_alias=True)`:
all keys present, the optional ones possibly null. -/
structure SnapJson where
  snapshotId : Int
  parentSnapshotId : Option Int
  sequenceNumber : Option Int
  timestampMs : Int
  manifestList : String
  summaryOperation : String
  schemaId : Option Int
deriving DecidableEq, Repr

/-- A row of the `schemas` table. -/
structure SchemaRow where
  schemaId : Int
  schemaJson : SchemaJson
deriving DecidableEq, Repr

/-- A row of the `partition_specs` table. -/
structure SpecRow where
  specId : Int
  specJson : SpecJson
deriving DecidableEq, Repr

/-- A row of the `sort_orders` table. -/
structure SortOrderRow where
  orderId : Int
  orderJson : SortOrderJson
deriving DecidableEq, Repr

/-- A row of the `snapshots` table. -/
structure SnapshotRow where
  snapshotId : Int
  parentSnapshotId : Option Int
  sequenceNumber : Option Int
  timestampMs : Int
  manifestList : String
  summaryOperation : String
  schemaId : Option Int
deriving DecidableEq, Repr

/-- A row of the `snapshot_refs` table. -/
structure RefRow where
  name : String
  snapshotId : Int
  refType : String
  minSnapshotsToKeep : Option Int
  maxSnapshotAgeMs : Option Int
  maxRefAgeMs : Option Int
deriving DecidableEq, Repr

/-- A row of the `table_statistics` table. -/
structure StatRow where
  snapshotId : Int
  statisticsPath : String
  fileSizeInBytes : Int
  fileFooterSizeInBytes : Int
  blobMetadata : String
deriving DecidableEq, Repr

/-- A row of the `partition_statistics` table. -/
structure PartStatRow where
  snapshotId : Int
  statisticsPath : String
  fileSizeInBytes : Int
deriving DecidableEq, Repr

/-- The header row of the `tables` table for one table.  Columns that the SQL
can set to NULL are `Option`. -/
structure TableRec where
  tableUuid : String
  location : String
  lastUpdatedMs : Int
  lastSequenceNumber : Int
  lastColumnId : Int
  schemaIdCol : Int
  currentSchemaId : Option Int
  defaultSpecId : Option Int
  lastPartitionId : Int
  defaultSortOrderId : Option Int
  properties : List (String × String)
  formatVersion : Int
  rowLineage : Option Bool
  nextRowId : Option Int
  currentSnapshotId : Option Int
deriving DecidableEq, Repr

/-- All rows owned by one table, plus its metadata log: the slice of the
relational store that `update_table` reads and writes. -/
structure DbState where
  table : TableRec
  schemas : List SchemaRow
  specs : List SpecRow
  sortOrders : List SortOrderRow
  snapshots : List SnapshotRow
  refs : List RefRow
  tableStats : List StatRow
  partStats : List PartStatRow
  metadataLog : List (String × Int)
deriving DecidableEq, Repr

/-- ETag as generated by `get_table_basic_info` / `load_table`:
`f'"{table_uuid}-{last_updated_ms}"'`. -/
def etagOf (t : TableRec) : String :=
  "\"" ++ t.tableUuid ++ "-" ++ toString t.lastUpdatedMs ++ "\""

/-- A row of the `storage_credentials` table (global rows have no table id). -/
structure CredRow where
  prefixCol : String
  warehouse : String
  config : List (String × String)
  tableId : Option Nat
deriving DecidableEq, Repr

/-- Character-list version of Python's `location.startswith(warehouse)`
(structural recursion so that concrete instances evaluate in the kernel). -/
def charsLead : List Char → List Char → Bool
  | [], _ => true
  | _ :: _, [] => false
  | a :: as, b :: bs => a == b && charsLead as bs

/-- `s.startswith(p)`. -/
def strStartsWith (s p : String) : Bool :=
  charsLead p.data s.data

/-- Association-list lookup, mirroring `config[k]` on a parsed JSON object. -/
def alookup (m : List (String × String)) (k : String) : Option String :=
  (m.find? (fun p => p.1 == k)).map (fun p => p.2)

/-- Key translation in `get_table_config`: credential keys to engine-side
configuration keys, in the fixed order the source emits them. -/
def translateCredConfig (cfg : List (String × String)) : List (String × String) :=
  (match alookup cfg "region" with
    | some v => [("client.region", v)]
    | none => []) ++
  (match alookup cfg "access-key-id" with
    | some v => [("s3.access-key-id", v)]
    | none => []) ++
  (match alookup cfg "secret-access-key" with
    | some v => [("s3.secret-access-key", v)]
    | none => []) ++
  (match alookup cfg "session-token" with
    | some v => [("s3.session-token", v)]
    | none => []) ++
  (if alookup cfg "use-instance-credentials" == some "true" then
    [("s3.use-instance-credentials", "true")]
  else [])

/-- The conservative default returned by `get_table_config` when no global
credential's warehouse is a string prefix of the table location. -/
def defaultTableConfig : List (String × String) :=
  [("client.region", "us-east-1"), ("s3.use-instance-credentials", "true")]

/-- `get_table_config` (`app/services/table.py:394`): fetches the global
credential rows (no `ORDER BY`, modelled as stored order), walks them in that
order and takes the FIRST row whose `warehouse` is a string prefix of the
table location (`location.startswith(warehouse)`, then `break`); translates
its config, or falls back to the defaults. -/
def getTableConfig (location : String) (globalCreds : List CredRow) :
    List (String × String) :=
  match globalCreds.find? (fun c => strStartsWith location c.warehouse) with
  | some c => translateCredConfig c.config
  | none => defaultTableConfig

/-- Modelled from the claim, for comparison only: pick the global credential
with the LONGEST warehouse that is a prefix of the location. -/
def getTableConfigClaimed (location : String) (globalCreds : List CredRow) :
    List (String × String) :=
  let matching := globalCreds.filter (fun c => strStartsWith location c.warehouse)
  match matching.foldl
      (fun best c =>
        match best with
        | none => some c
        | some b => if c.warehouse.length > b.warehouse.length then some c else some b)
      none with
  | some c => translateCredConfig c.config
  | none => defaultTableConfig

/-- The credential bundle shape returned to engines (`StorageCredential`):
the matched warehouse is used as the outgoing prefix field. -/
structure StorageCred where
  outPrefix : String
  config : List (String × String)
deriving DecidableEq, Repr

/-- Insertion into a list sorted by decreasing warehouse length (models the
`ORDER BY LENGTH(warehouse) DESC` of `get_storage_credentials`; ties keep
first-come order, which the SQL leaves unspecified). -/
def insertByLenDesc (c : CredRow) : List CredRow → List CredRow
  | [] => [c]
  | d :: ds =>
    if c.warehouse.length > d.warehouse.length then c :: d :: ds
    else d :: insertByLenDesc c ds

/-- Sort credential rows by decreasing warehouse length. -/
def sortByLenDesc (cs : List CredRow) : List CredRow :=
  cs.foldl (fun acc c => insertByLenDesc c acc) []

/-- `get_storage_credentials` (`app/services/table.py:989`): first
table-scoped rows; otherwise global rows whose warehouse is a prefix of the
location, longest warehouse first; otherwise a last scan taking the first
global row matching by `startswith` (dead in practice, kept faithful).  Each
resulting bundle carries the matched warehouse as its outgoing prefix. -/
def getStorageCredentials (tableId : Nat) (location : String)
    (creds : List CredRow) : List StorageCred :=
  let tableCreds := creds.filter (fun c => c.tableId == some tableId)
  let records :=
    if tableCreds.isEmpty then
      let located := sortByLenDesc
        ((creds.filter (fun c => c.tableId == none)).filter
          (fun c => strStartsWith location c.warehouse))
      if located.isEmpty then
        match (creds.filter (fun c => c.tableId == none)).find?
            (fun c => strStartsWith location c.warehouse) with
        | some c => [c]
        | none => []
      else located
    else tableCreds
  records.map (fun c => { outPrefix := c.warehouse, config := c.config })

/-! ## Metadata assembly (the two read paths) -/

/-- The canonical materialized metadata document. -/
structure TableMetadataDoc where
  formatVersion : Int
  tableUuid : String
  location : String
  lastUpdatedMs : Int
  properties : List (String × String)
  schemas : List SchemaJson
  currentSchemaId : Option Int
  lastColumnId : Int
  partitionSpecs : List SpecJson
  defaultSpecId : Option Int
  lastPartitionId : Int
  sortOrders : List SortOrderJson
  defaultSortOrderId : Option Int
  snapshots : List SnapshotRow
  refs : List RefRow
  currentSnapshotId : Option Int
  lastSequenceNumber : Int
  rowLineage : Option Bool
  nextRowId : Option Int
deriving DecidableEq, Repr

/-- Load-path schema repair (`build_table_response` / `load_table`): a blob
whose `schema-id` is absent or null inherits the row's index column. -/
def repairSchemaLoad (row : SchemaRow) : SchemaJson :=
  if row.schemaJson.schemaId.isMissingOrNull then
    { row.schemaJson with schemaId := .val row.schemaId }
  else row.schemaJson

/-- Load-path partition-field repair: fields with an absent or null
`field-id` are assigned `last_field_id + 1`, advancing the counter; fields
that already carry an id leave the counter untouched. -/
def repairSpecFieldsLoad (lastFieldId : Int) : List PartFieldJ → List PartFieldJ
  | [] => []
  | f :: fs =>
    if f.fieldId.isMissingOrNull then
      { f with fieldId := .val (lastFieldId + 1) } ::
        repairSpecFieldsLoad (lastFieldId + 1) fs
    else f :: repairSpecFieldsLoad lastFieldId fs

/-- Load-path spec repair: `spec-id` inherited like `schema-id`; the field
counter starts at the table's `last_partition_id` afresh for every row. -/
def repairSpecLoad (lastPartitionId : Int) (row : SpecRow) : SpecJson :=
  let sj :=
    if row.specJson.specId.isMissingOrNull then
      { row.specJson with specId := .val row.specId }
    else row.specJson
  { sj with fields := repairSpecFieldsLoad lastPartitionId sj.fields }

/-- Post-commit schema repair (`_build_table_metadata`): only an ABSENT
`schema-id` is repaired (`"schema-id" not in schema_json`); an explicit null
survives. -/
def repairSchemaCommitPath (row : SchemaRow) : SchemaJson :=
  if row.schemaJson.schemaId.isAbsent then
    { row.schemaJson with schemaId := .val row.schemaId }
  else row.schemaJson

/-- Post-commit spec repair (`_build_table_metadata`): an absent `spec-id` is
inherited; every field with an absent-or-null `field-id` receives the SAME
value `last_partition_id + 1` (no counter is advanced). -/
def repairSpecCommitPath (lastPartitionId : Int) (row : SpecRow) : SpecJson :=
  let sj :=
    if row.specJson.specId.isAbsent then
      { row.specJson with specId := .val row.specId }
    else row.specJson
  { sj with
    fields := sj.fields.map (fun f =>
      if f.fieldId.isMissingOrNull then
        { f with fieldId := .val (lastPartitionId + 1) }
      else f) }

/-- Snapshot filtering for the `snapshots=refs` query parameter. -/
def filterSnapshots (s : DbState) (snapshotsParam : Option String) :
    List SnapshotRow :=
  if snapshotsParam == some "refs" then
    s.snapshots.filter (fun r =>
      s.refs.any (fun ref => ref.snapshotId == r.snapshotId))
  else s.snapshots

/-- `_build_table_metadata` (`app/services/table.py:2208`): the document
materialized after a commit. -/
def buildTableMetadataDoc (s : DbState) : TableMetadataDoc :=
  { formatVersion := s.table.formatVersion
    tableUuid := s.table.tableUuid
    location := s.table.location
    lastUpdatedMs := s.table.lastUpdatedMs
    properties := s.table.properties
    schemas := s.schemas.map repairSchemaCommitPath
    currentSchemaId := s.table.currentSchemaId
    lastColumnId := s.table.lastColumnId
    partitionSpecs := s.specs.map (repairSpecCommitPath s.table.lastPartitionId)
    defaultSpecId := s.table.defaultSpecId
    lastPartitionId := s.table.lastPartitionId
    sortOrders := s.sortOrders.map (fun r => r.orderJson)
    defaultSortOrderId := s.table.defaultSortOrderId
    snapshots := s.snapshots
    refs := s.refs
    currentSnapshotId := s.table.currentSnapshotId
    lastSequenceNumber := s.table.lastSequenceNumber
    rowLineage := s.table.rowLineage
    nextRowId := s.table.nextRowId }

/-- `build_table_response` / `load_table` metadata assembly: the document
materialized on the load path, with the thorough id repair. -/
def buildLoadDoc (s : DbState) (snapshotsParam : Option String) :
    TableMetadataDoc :=
  { formatVersion := s.table.formatVersion
    tableUuid := s.table.tableUuid
    location := s.table.location
    lastUpdatedMs := s.table.lastUpdatedMs
    properties := s.table.properties
    schemas := s.schemas.map repairSchemaLoad
    currentSchemaId := s.table.currentSchemaId
    lastColumnId := s.table.lastColumnId
    partitionSpecs := s.specs.map (repairSpecLoad s.table.lastPartitionId)
    defaultSpecId := s.table.defaultSpecId
    lastPartitionId := s.table.lastPartitionId
    sortOrders := s.sortOrders.map (fun r => r.orderJson)
    defaultSortOrderId := s.table.defaultSortOrderId
    snapshots := filterSnapshots s snapshotsParam
    refs := s.refs
    currentSnapshotId := s.table.currentSnapshotId
    lastSequenceNumber := s.table.lastSequenceNumber
    rowLineage := s.table.rowLineage
    nextRowId := s.table.nextRowId }

/-! ## Commit engine -/

/-- Commit requirements, one constructor per `type` string, plus a
constructor for an unrecognized type. -/
inductive TableRequirement where
  | assertCreate
  | assertTableUuid (uuid : String)
  | assertRefSnapshotId (ref : String) (snapshotId : Option Int)
  | assertLastAssignedFieldId (v : Int)
  | assertCurrentSchemaId (v : Int)
  | assertLastAssignedPartitionId (v : Int)
  | assertDefaultSpecId (v : Int)
  | assertDefaultSortOrderId (v : Int)
  | unknownReq (ty : String)
deriving DecidableEq, Repr

/-- `_validate_requirement` (`app/services/table.py:1688`): `assert-create`
always fails here (the table was already loaded); an unknown type fails. -/
def validateRequirement (s : DbState) (hdr : TableRec) :
    TableRequirement → Bool
  | .assertCreate => false
  | .assertTableUuid u => hdr.tableUuid == u
  | .assertRefSnapshotId r sid =>
    match s.refs.find? (fun x => x.name == r), sid with
    | none, none => true
    | some row, some v => row.snapshotId == v
    | none, some _ => false
    | some _, none => false
  | .assertLastAssignedFieldId v => hdr.lastColumnId == v
  | .assertCurrentSchemaId v => hdr.currentSchemaId == some v
  | .assertLastAssignedPartitionId v => hdr.lastPartitionId == v
  | .assertDefaultSpecId v => hdr.defaultSpecId == some v
  | .assertDefaultSortOrderId v => hdr.defaultSortOrderId == some v
  | .unknownReq _ => false

/-- Commit updates, one constructor per `action` string, plus a constructor
for an unrecognized action. -/
inductive TableUpdate where
  | assignUuid (uuid : String)
  | upgradeFormatVersion (v : Int)
  | addSchema (schema : SchemaJson)
  | setCurrentSchema (schemaId : Int)
  | addSpec (spec : SpecJson)
  | setDefaultSpec (specId : Int)
  | addSortOrder (order : SortOrderJson)
  | setDefaultSortOrder (orderId : Int)
  | addSnapshot (snap : SnapJson)
  | setSnapshotRef (refName : String) (snapshotId : Int) (refType : String)
      (minKeep : Option Int) (maxSnapAge : Option Int) (maxRefAge : Option Int)
  | removeSnapshots (ids : List Int)
  | removeSnapshotRef (refName : String)
  | setLocation (loc : String)
  | setProperties (kvs : List (String × String))
  | removeProperties (keys : List String)
  | setStatistics (stat : StatRow)
  | setPartitionStatistics (stat : PartStatRow)
  | removeStatistics (snapshotId : Int)
  | removePartitionStatistics (snapshotId : Int)
  | removePartitionSpecs (ids : List Int)
  | removeSchemas (ids : List Int)
  | enableRowLineage
  | unknownAction (action : String)
deriving DecidableEq, Repr

/-- `SELECT MAX(schema_id) FROM schemas WHERE table_id = ...`. -/
def maxSchemaRowId (rows : List SchemaRow) : Option Int :=
  rows.foldl (fun a r =>
    match a with
    | none => some r.schemaId
    | some m => some (max m r.schemaId)) none

/-- `SELECT MAX(spec_id) FROM partition_specs ...`. -/
def maxSpecRowId (rows : List SpecRow) : Option Int :=
  rows.foldl (fun a r =>
    match a with
    | none => some r.specId
    | some m => some (max m r.specId)) none

/-- `SELECT MAX(order_id) FROM sort_orders ...`. -/
def maxOrderRowId (rows : List SortOrderRow) : Option Int :=
  rows.foldl (fun a r =>
    match a with
    | none => some r.orderId
    | some m => some (max m r.orderId)) none

/-- Python dict assignment `d[k] = v`: replaces in place or appends. -/
def dictInsert (m : List (String × String)) (k v : String) :
    List (String × String) :=
  if m.any (fun p => p.1 == k) then
    m.map (fun p => if p.1 == k then (k, v) else p)
  else m ++ [(k, v)]

/-- Python `del d[k]` folded over a removal list (absent keys are silent,
matching `remove-properties`). -/
def dictRemoveKeys (m : List (String × String)) (ks : List String) :
    List (String × String) :=
  ks.foldl (fun acc k => acc.filter (fun p => p.1 != k)) m

/-- `add-spec`'s walk over the supplied fields: present non-null ids raise
the running `last_partition_id` via max, missing ones are assigned the next
value. Returns the final counter and the rewritten fields. -/
def addSpecWalk (lastPartitionId : Int) :
    List PartFieldJ → Int × List PartFieldJ
  | [] => (lastPartitionId, [])
  | f :: fs =>
    match f.fieldId.get? with
    | some v =>
      let next := if v > lastPartitionId then v else lastPartitionId
      let (fin, rest) := addSpecWalk next fs
      (fin, f :: rest)
    | none =>
      let next := lastPartitionId + 1
      let (fin, rest) := addSpecWalk next fs
      (fin, { f with fieldId := .val next } :: rest)

/-- The `snapshots` row inserted by `add-snapshot`. -/
def snapRowOf (snap : SnapJson) : SnapshotRow :=
  { snapshotId := snap.snapshotId
    parentSnapshotId := snap.parentSnapshotId
    sequenceNumber := snap.sequenceNumber
    timestampMs := snap.timestampMs
    manifestList := snap.manifestList
    summaryOperation := snap.summaryOperation
    schemaId := snap.schemaId }

/-- `_apply_update` (`app/services/table.py:1745`).  `hdr` is the table
header record HANDED IN by the caller (it may be stale); reads of table
header fields (`last_column_id`, `last_partition_id`, `properties`) go
through `hdr`, while all writes and child-row reads go to the live state
`s`.  An unrecognized action raises (`none`). -/
def applyUpdate (hdr : TableRec) (s : DbState) : TableUpdate → Option DbState
  | .assignUuid u => some { s with table := { s.table with tableUuid := u } }
  | .upgradeFormatVersion v =>
    some { s with table := { s.table with formatVersion := v } }
  | .addSchema sj =>
    let sid := match sj.schemaId.get? with
      | some i => i
      | none => ((maxSchemaRowId s.schemas).getD (-1)) + 1
    let sj1 := match sj.schemaId.get? with
      | some _ => sj
      | none => { sj with schemaId := .val sid }
    let lcid := sj1.fields.foldl
      (fun a f => if f.id > a then f.id else a) hdr.lastColumnId
    some { s with
      schemas := s.schemas ++ [{ schemaId := sid, schemaJson := sj1 }]
      table := { s.table with lastColumnId := lcid } }
  | .setCurrentSchema sid =>
    let newId := if sid == -1 then maxSchemaRowId s.schemas else some sid
    some { s with table := { s.table with currentSchemaId := newId } }
  | .addSpec sj =>
    let sid := match sj.specId.get? with
      | some i => i
      | none => ((maxSpecRowId s.specs).getD (-1)) + 1
    let sj1 := match sj.specId.get? with
      | some _ => sj
      | none => { sj with specId := .val sid }
    let (lpid, fields1) := addSpecWalk hdr.lastPartitionId sj1.fields
    some { s with
      specs := s.specs ++ [{ specId := sid, specJson := { sj1 with fields := fields1 } }]
      table := { s.table with lastPartitionId := lpid } }
  | .setDefaultSpec sid =>
    let newId := if sid == -1 then maxSpecRowId s.specs else some sid
    some { s with table := { s.table with defaultSpecId := newId } }
  | .addSortOrder oj =>
    some { s with sortOrders := s.sortOrders ++ [{ orderId := oj.orderId, orderJson := oj }] }
  | .setDefaultSortOrder oid =>
    let newId := if oid == -1 then maxOrderRowId s.sortOrders else some oid
    some { s with table := { s.table with defaultSortOrderId := newId } }
  | .addSnapshot snap =>
    let row := snapRowOf snap
    -- `GREATEST(last_sequence_number, $2)`: Postgres ignores a NULL argument.
    let lsn := match snap.sequenceNumber with
      | some v => max s.table.lastSequenceNumber v
      | none => s.table.lastSequenceNumber
    some { s with
      snapshots := s.snapshots ++ [row]
      table := { s.table with
        currentSnapshotId := some snap.snapshotId
        lastSequenceNumber := lsn } }
  | .setSnapshotRef refName snapshotId refType minKeep maxSnapAge maxRefAge =>
    let newRow : RefRow :=
      { name := refName, snapshotId := snapshotId, refType := refType
        minSnapshotsToKeep := minKeep, maxSnapshotAgeMs := maxSnapAge
        maxRefAgeMs := maxRefAge }
    if s.refs.any (fun r => r.name == refName) then
      some { s with refs := s.refs.map (fun r => if r.name == refName then newRow else r) }
    else
      some { s with refs := s.refs ++ [newRow] }
  | .removeSnapshots ids =>
    some { s with snapshots := s.snapshots.filter (fun r => !(ids.contains r.snapshotId)) }
  | .removeSnapshotRef refName =>
    some { s with refs := s.refs.filter (fun r => r.name != refName) }
  | .setLocation loc =>
    some { s with table := { s.table with location := loc } }
  | .setProperties kvs =>
    -- reads the properties of the HANDED-IN header record, then persists
    let props := kvs.foldl (fun acc kv => dictInsert acc kv.1 kv.2) hdr.properties
    some { s with table := { s.table with properties := props } }
  | .removeProperties keys =>
    let props := dictRemoveKeys hdr.properties keys
    some { s with table := { s.table with properties := props } }
  | .setStatistics stat =>
    if s.tableStats.any (fun r => r.snapshotId == stat.snapshotId) then
      some { s with tableStats :=
        s.tableStats.map (fun r => if r.snapshotId == stat.snapshotId then stat else r) }
    else
      some { s with tableStats := s.tableStats ++ [stat] }
  | .setPartitionStatistics stat =>
    if s.partStats.any (fun r => r.snapshotId == stat.snapshotId) then
      some { s with partStats :=
        s.partStats.map (fun r => if r.snapshotId == stat.snapshotId then stat else r) }
    else
      some { s with partStats := s.partStats ++ [stat] }
  | .removeStatistics snapshotId =>
    some { s with tableStats := s.tableStats.filter (fun r => r.snapshotId != snapshotId) }
  | .removePartitionStatistics snapshotId =>
    some { s with partStats := s.partStats.filter (fun r => r.snapshotId != snapshotId) }
  | .removePartitionSpecs ids =>
    some { s with specs := s.specs.filter (fun r => !(ids.contains r.specId)) }
  | .removeSchemas ids =>
    some { s with schemas := s.schemas.filter (fun r => !(ids.contains r.schemaId)) }
  | .enableRowLineage =>
    some { s with table := { s.table with rowLineage := some true } }
  | .unknownAction _ => none

/-- The update loop of `update_table` (`app/services/table.py:1644`): every
iteration passes the SAME header record `hdr` — the one read before the
loop — to `_apply_update`; the live state threads through. -/
def applyUpdatesStale (hdr : TableRec) (s : DbState) :
    List TableUpdate → Option DbState
  | [] => some s
  | u :: us =>
    match applyUpdate hdr s u with
    | none => none
    | some s1 => applyUpdatesStale hdr s1 us

/-- The update loop of `commit_transaction` (`app/services/table.py:2425`):
the table record is reloaded after each update, so every `_apply_update`
call sees the current header. -/
def applyUpdatesReload (s : DbState) : List TableUpdate → Option DbState
  | [] => some s
  | u :: us =>
    match applyUpdate s.table s u with
    | none => none
    | some s1 => applyUpdatesReload s1 us

/-- A CommitTableRequest: ordered requirements then ordered updates. -/
structure CommitRequestM where
  requirements : List TableRequirement
  updates : List TableUpdate

inductive CommitErr where
  | requirementNotMet (r : TableRequirement)
  | updateFailed
deriving DecidableEq, Repr

/-- `{format_version:05d}` zero padding. -/
def pad5 (n : Int) : String :=
  let str := toString n
  if str.length < 5 then String.mk (List.replicate (5 - str.length) '0') ++ str
  else str

/-- `{location}/metadata/{format_version:05d}-{uuid}.metadata.json`. -/
def metadataFileName (location : String) (fv : Int) (fileUuid : String) :
    String :=
  location ++ "/metadata/" ++ pad5 fv ++ "-" ++ fileUuid ++ ".metadata.json"

structure CommitTableResponseM where
  metadataLocation : String
  metadata : TableMetadataDoc
deriving DecidableEq, Repr

/-- The stored state after the call together with the returned value. -/
structure CommitOutcome where
  state : DbState
  result : Except CommitErr CommitTableResponseM

/-- `update_table` (`app/services/table.py:1599`): validate the requirements
against the header read up front, apply the updates (each seeing that same
header), then mint the metadata file name from the pre-commit `location` and
the post-commit `format_version`, append the metadata-log entry with the
wall-clock `nowMs`, and rematerialize.  The body runs inside
`db.transaction()`: any raise rolls the stored state back to `s`.  Note that
no branch writes `last_updated_ms`. -/
def updateTableRun (s : DbState) (req : CommitRequestM) (nowMs : Int)
    (fileUuid : String) : CommitOutcome :=
  let hdr := s.table
  match req.requirements.find? (fun r => !(validateRequirement s hdr r)) with
  | some r => { state := s, result := .error (.requirementNotMet r) }
  | none =>
    match applyUpdatesStale hdr s req.updates with
    | none => { state := s, result := .error .updateFailed }
    | some s1 =>
      let metaLoc := metadataFileName hdr.location s1.table.formatVersion fileUuid
      let s2 := { s1 with metadataLog := s1.metadataLog ++ [(metaLoc, nowMs)] }
      { state := s2
        result := .ok { metadataLocation := metaLoc
                        metadata := buildTableMetadataDoc s2 } }

/-- One table change of `commit_transaction` (`app/services/table.py:2389`):
requirements against the freshly loaded record, then the reload-per-update
loop.  Errors abort the surrounding outer transaction. -/
def applyTableChange (s : DbState) (req : CommitRequestM) :
    Except CommitErr DbState :=
  let hdr := s.table
  match req.requirements.find? (fun r => !(validateRequirement s hdr r)) with
  | some r => .error (.requirementNotMet r)
  | none =>
    match applyUpdatesReload s req.updates with
    | none => .error .updateFailed
    | some s1 => .ok s1

/-! ## Catalog-level read path, cache, create -/

/-- One table of the catalog: its identity plus all of its rows. -/
structure TableEntry where
  ns : List String
  name : String
  tableId : Nat
  rows : DbState
deriving DecidableEq, Repr

/-- The catalog slice touched by the lifecycle operations. -/
structure CatalogState where
  namespaces : List (List String)
  tables : List TableEntry
  creds : List CredRow
  defaultWarehouse : Option String
deriving DecidableEq, Repr

def findTable (c : CatalogState) (ns : List String) (name : String) :
    Option TableEntry :=
  c.tables.find? (fun e => e.ns == ns && e.name == name)

/-- The global (table-unset) credential rows, in stored order — the rows the
`WHERE table_id IS NULL` queries return. -/
def globalCreds (c : CatalogState) : List CredRow :=
  c.creds.filter (fun cr => cr.tableId == none)

def tableConfigOf (c : CatalogState) (e : TableEntry) :
    List (String × String) :=
  getTableConfig e.rows.table.location (globalCreds c)

def storageCredsOf (c : CatalogState) (e : TableEntry) : List StorageCred :=
  getStorageCredentials e.tableId e.rows.table.location c.creds

/-- `get_table_basic_info` (`app/services/table.py:470`): `none` = table not
found; otherwise the ETag plus `none` in the third slot when `If-None-Match`
equals it (the 304 signal). -/
def getTableBasicInfo (c : CatalogState) (ns : List String) (name : String)
    (ifNoneMatch : Option String) :
    Option (TableEntry × String × Option (Int × String)) :=
  match findTable c ns name with
  | none => none
  | some e =>
    let etag := etagOf e.rows.table
    if ifNoneMatch == some etag then some (e, etag, none)
    else some (e, etag, some (e.rows.table.formatVersion, e.rows.table.tableUuid))

/-- The result envelope (`LoadTableResult` / the cached `result_dict`). -/
structure Envelope where
  metadataLocation : String
  metadata : TableMetadataDoc
  config : List (String × String)
  storageCreds : Option (List StorageCred)
deriving DecidableEq, Repr

/-- The process-local response cache, keyed by
`{namespace joined by '.'}.{table}`. -/
def cacheKey (ns : List String) (name : String) : String :=
  String.intercalate "." ns ++ "." ++ name

def CacheT : Type := List (String × Envelope)

def cacheLookup (cache : CacheT) (k : String) : Option Envelope :=
  (List.find? (fun p => p.1 == k) cache).map (fun p => p.2)

/-- `cache_table_metadata`: last writer wins per key. -/
def cacheStore (cache : CacheT) (k : String) (env : Envelope) : CacheT :=
  if (List.any cache (fun p => p.1 == k)) then
    List.map (fun p => if p.1 == k then (k, env) else p) cache
  else (k, env) :: cache

/-- `build_table_response` (`app/services/table.py:750`): assembles the load
document, resolves config and credentials, caches the result dictionary
(whose `storage-credentials` is null when the credential list is empty) and
returns the result.  `metadata_location` is `{location}/metadata/current.metadata.json`. -/
def buildTableResponse (c : CatalogState) (e : TableEntry)
    (snapshotsParam : Option String) (cache : CacheT) : Envelope × CacheT :=
  let doc := buildLoadDoc e.rows snapshotsParam
  let metaLoc := e.rows.table.location ++ "/metadata/current.metadata.json"
  let config := tableConfigOf c e
  let creds := storageCredsOf c e
  let cachedDict : Envelope :=
    { metadataLocation := metaLoc, metadata := doc, config := config
      storageCreds := if creds.isEmpty then none else some creds }
  let result : Envelope :=
    { metadataLocation := metaLoc, metadata := doc, config := config
      storageCreds := some creds }
  (result, cacheStore cache (cacheKey e.ns e.name) cachedDict)

inductive LoadResponse where
  | ok (etag : String) (body : Envelope)
  | notModified
  | notFound
deriving DecidableEq, Repr

/-- The `GET .../tables/{t}` handler (`app/api/tables.py:184`): basic info
first; config and credentials are resolved fresh in every case.  On an ETag
match the cached envelope — when present — is returned as a 200 with fresh
`config` and `storage-credentials` overlaid (the latter null when the list
is empty); with no cache entry the response is a bodyless 304.  Otherwise
the full response is built, overlaid, and cached. -/
def loadTableEndpoint (c : CatalogState) (cache : CacheT) (ns : List String)
    (name : String) (snapshotsParam : Option String)
    (ifNoneMatch : Option String) : LoadResponse × CacheT :=
  match getTableBasicInfo c ns name ifNoneMatch with
  | none => (.notFound, cache)
  | some (e, etag, basic) =>
    let config := tableConfigOf c e
    let creds := storageCredsOf c e
    match basic with
    | none =>
      match cacheLookup cache (cacheKey ns name) with
      | some env =>
        (.ok etag { env with
          config := config
          storageCreds := if creds.isEmpty then none else some creds }, cache)
      | none => (.notModified, cache)
    | some _ =>
      let (result, cache1) := buildTableResponse c e snapshotsParam cache
      let resultDict := { result with
        config := config, storageCreds := some creds }
      let cache2 := cacheStore cache1 (cacheKey ns name) resultDict
      (.ok etag resultDict, cache2)

/-- Python truthiness of the optional `x-iceberg-access-delegation` header:
absent and empty-string are both falsy. -/
def hdrTruthy : Option String → Bool
  | none => false
  | some s => !s.isEmpty

/-- The service-layer `load_table` (`app/services/table.py:1064`).  The
delegation header is accepted but never consulted: storage credentials are
resolved for every load (the header-gated variant is commented out in the
source).  Returns `none` inside `ok` as the 304 signal. -/
def loadTableService (c : CatalogState) (ns : List String) (name : String)
    (snapshotsParam : Option String) (delegationHeader : Option String)
    (ifNoneMatch : Option String) : Option (Option (Envelope × String)) :=
  match findTable c ns name with
  | none => none
  | some e =>
    let etag := etagOf e.rows.table
    if ifNoneMatch == some etag then some none
    else
      let doc := buildLoadDoc e.rows snapshotsParam
      let metaLoc := e.rows.table.location ++ "/metadata/current.metadata.json"
      let config := tableConfigOf c e
      let creds := storageCredsOf c e
      some (some ({ metadataLocation := metaLoc, metadata := doc
                    config := config, storageCreds := some creds }, etag))

/-- `CreateTableRequest` (`app/models/table.py:202`). -/
structure CreateTableRequestM where
  name : String
  location : Option String
  schema : SchemaJson
  partitionSpec : Option SpecJson
  writeOrder : Option SortOrderJson
  properties : List (String × String)
  credentials : Option (List (String × String))
deriving DecidableEq, Repr

/-- `'/'.join(location.split('/')[:3]) + '/'` — the warehouse derived for an
inline credential on create. -/
def warehouseOfLocation (location : String) : String :=
  String.intercalate "/" ((location.splitOn "/").take 3) ++ "/"

inductive CreateErr where
  | namespaceNotFound
  | alreadyExists
deriving DecidableEq, Repr

/-- `create_table` (`app/services/table.py:167`).  Fresh uuid, wall-clock
millis, and the new row id are parameters (the source draws them from the
environment).  Storage credentials appear in the response only when the
delegation header is truthy; the returned `schemas`/`partition-specs`/
`sort-orders` echo the REQUEST objects, not the repaired stored blobs. -/
def createTable (c : CatalogState) (nsLevels : List String)
    (request : CreateTableRequestM) (delegationHeader : Option String)
    (tableUuid : String) (nowMs : Int) (newTableId : Nat)
    (metaUuid : String) : Except CreateErr (CatalogState × Envelope) :=
  if !(c.namespaces.contains nsLevels) then .error .namespaceNotFound
  else if (findTable c nsLevels request.name).isSome then .error .alreadyExists
  else
    let location := match request.location with
      | some l => l
      | none =>
        (c.defaultWarehouse.getD "s3://default-warehouse") ++ "/" ++
          String.intercalate "." nsLevels ++ "/" ++ request.name
    -- schema: only an ABSENT schema-id is replaced by 0
    let schemaJson1 :=
      if request.schema.schemaId.isAbsent then
        { request.schema with schemaId := JVal.val 0 }
      else request.schema
    let lastColumnId := request.schema.fields.foldl
      (fun a f => if f.id > a then f.id else a) 0
    let (specJson1, lastPartitionId) := match request.partitionSpec with
      | some sj =>
        let sj1 := if sj.specId.isAbsent then { sj with specId := JVal.val 0 } else sj
        let (lpid, fields1) := addSpecWalk 0 sj1.fields
        ({ sj1 with fields := fields1 }, lpid)
      | none => ({ specId := JVal.val 0, fields := [] }, 0)
    let (orderJson1, sortOrderId) := match request.writeOrder with
      | some oj => (oj, oj.orderId)
      | none => ({ orderId := 0 }, 0)
    let newRec : TableRec :=
      { tableUuid := tableUuid, location := location, lastUpdatedMs := nowMs
        lastSequenceNumber := 0, lastColumnId := lastColumnId
        schemaIdCol := 0, currentSchemaId := some 0, defaultSpecId := some 0
        lastPartitionId := lastPartitionId
        defaultSortOrderId := some sortOrderId
        properties := request.properties, formatVersion := 2
        rowLineage := none, nextRowId := none, currentSnapshotId := none }
    let rows : DbState :=
      { table := newRec
        schemas := [{ schemaId := 0, schemaJson := schemaJson1 }]
        specs := [{ specId := 0, specJson := specJson1 }]
        sortOrders := [{ orderId := sortOrderId, orderJson := orderJson1 }]
        snapshots := [], refs := [], tableStats := [], partStats := []
        metadataLog := [] }
    -- inline credentials: only when no global credential already matches
    let creds1 := match request.credentials with
      | some cfg =>
        let existing := (globalCreds c).filter
          (fun cr => strStartsWith location cr.warehouse)
        if existing.isEmpty then
          c.creds ++ [{ prefixCol := nsLevels.headD "default"
                        warehouse := warehouseOfLocation location
                        config := cfg, tableId := none }]
        else c.creds
      | none => c.creds
    let c1 : CatalogState :=
      { c with
        tables := c.tables ++ [{ ns := nsLevels, name := request.name
                                 tableId := newTableId, rows := rows }]
        creds := creds1 }
    let metaLoc := location ++ "/metadata/00000-" ++ metaUuid ++ ".metadata.json"
    let config := getTableConfig location (globalCreds c1)
    let storageCreds :=
      if hdrTruthy delegationHeader then
        some (getStorageCredentials newTableId location c1.creds)
      else none
    let doc : TableMetadataDoc :=
      { formatVersion := 2, tableUuid := tableUuid, location := location
        lastUpdatedMs := nowMs, properties := request.properties
        schemas := [request.schema]
        currentSchemaId := some 0, lastColumnId := lastColumnId
        partitionSpecs := [match request.partitionSpec with
          | some sj => sj
          | none => { specId := JVal.val 0, fields := [] }]
        defaultSpecId := some 0, lastPartitionId := lastPartitionId
        sortOrders := [orderJson1]
        defaultSortOrderId := some sortOrderId
        snapshots := [], refs := [], currentSnapshotId := none
        lastSequenceNumber := 0, rowLineage := none, nextRowId := none }
    .ok (c1, { metadataLocation := metaLoc, metadata := doc
               config := config, storageCreds := storageCreds })

/-! ## Metrics ingest -/

/-- The attribute names the pydantic `ReportMetricsRequest` model declares
(`app/models/table.py:186`); `hasattr(request, a)` holds exactly for these. -/
def reportMetricsModelAttrs : List String :=
  ["table_name", "snapshot_id", "report_type", "metrics", "metadata"]

def hasattrReq (a : String) : Bool :=
  reportMetricsModelAttrs.contains a

/-- A metrics report as it might arrive on the wire: the JSON body may carry
`filter`, `schema-id`, `sequence-number` or `operation` keys. -/
structure ReportMetricsWire where
  tableName : String
  snapshotId : Int
  reportType : String
  filter : Option String
  schemaId : Option Int
  sequenceNumber : Option Int
  operation : Option String
deriving DecidableEq, Repr

/-- The parsed pydantic model: only the declared fields survive; extra keys
are ignored (pydantic v1 default). -/
structure ReportMetricsRequestM where
  tableName : String
  snapshotId : Int
  reportType : String
deriving DecidableEq, Repr

def parseReportMetrics (w : ReportMetricsWire) : ReportMetricsRequestM :=
  { tableName := w.tableName, snapshotId := w.snapshotId
    reportType := w.reportType }

/-- A stored `operation_metrics` row, by the INSERT that produced it. -/
inductive OperationMetricsRow where
  | scanRow (reportType : String) (snapshotId : Int)
      (filterJson : Option String) (schemaId : Option Int)
  | commitRow (reportType : String) (snapshotId : Int)
      (sequenceNumber : Option Int) (operation : Option String)
deriving DecidableEq, Repr

/-- `report_metrics` (`app/services/table.py:1521`), the row it appends:
the branch tests `hasattr(request, 'filter') and hasattr(request,
'schema_id')` on the parsed model; `getattr(request, 'sequence_number',
None)` and `getattr(request, 'operation', None)` fill the commit columns. -/
def reportMetricsRow (r : ReportMetricsRequestM) : OperationMetricsRow :=
  if hasattrReq "filter" && hasattrReq "schema_id" then
    .scanRow r.reportType r.snapshotId none none
  else
    .commitRow r.reportType r.snapshotId none none

/-- The service appends exactly the one row to the metrics log. -/
def reportMetricsService (log : List OperationMetricsRow)
    (r : ReportMetricsRequestM) : List OperationMetricsRow :=
  log ++ [reportMetricsRow r]

/-! ## Namespace property updates -/

structure NamespaceRow where
  levels : List String
  properties : List (String × String)
deriving DecidableEq, Repr

inductive NsErr where
  | notFound
  | conflict
deriving DecidableEq, Repr

/-- `update_namespace_properties` error mapping
(`app/api/namespaces.py`): conflicts map to 422, not-found to 404. -/
def nsErrStatus : NsErr → Nat
  | .notFound => 404
  | .conflict => 422

structure UpdateNsPropsResponse where
  updated : List String
  removed : List String
  missing : Option (List String)
deriving DecidableEq, Repr

/-- The removal loop of `update_properties`: walks `removals` in order,
deleting present keys (collected in `removed`, in walk order) and collecting
absent ones in `missing`. -/
def processRemovals (props : List (String × String)) :
    List String → List (String × String) × List String × List String
  | [] => (props, [], [])
  | k :: ks =>
    if props.any (fun q => q.1 == k) then
      let r := processRemovals (props.filter (fun q => q.1 != k)) ks
      (r.1, k :: r.2.1, r.2.2)
    else
      let r := processRemovals props ks
      (r.1, r.2.1, k :: r.2.2)

/-- `NamespaceService.update_properties` (`app/services/namespace.py:251`).
The conflict check precedes any write, so an error leaves the stored rows
untouched; otherwise removals are applied, then updates, and the row is
rewritten.  The `missing` field is set only when nonempty. -/
def updateNamespaceProperties (nss : List NamespaceRow) (levels : List String)
    (removals : List String) (updates : List (String × String)) :
    List NamespaceRow × Except NsErr UpdateNsPropsResponse :=
  match nss.find? (fun r => r.levels == levels) with
  | none => (nss, .error .notFound)
  | some row =>
    if removals.any (fun k => updates.any (fun kv => kv.1 == k)) then
      (nss, .error .conflict)
    else
      let pr := processRemovals row.properties removals
      let props2 := updates.foldl (fun acc kv => dictInsert acc kv.1 kv.2) pr.1
      let nss1 := nss.map (fun r =>
        if r.levels == levels then { r with properties := props2 } else r)
      (nss1, .ok { updated := updates.map (fun kv => kv.1), removed := pr.2.1
                   missing := if pr.2.2.isEmpty then none else some pr.2.2 })

/-! ## Concrete fixtures used by witnesses and counterexamples -/

def sampleHeader : TableRec :=
  { tableUuid := "u-1", location := "s3://b/tenant/t1", lastUpdatedMs := 1000
    lastSequenceNumber := 0, lastColumnId := 1, schemaIdCol := 0
    currentSchemaId := some 0, defaultSpecId := some 0, lastPartitionId := 0
    defaultSortOrderId := some 0, properties := [("k", "v")]
    formatVersion := 2, rowLineage := none, nextRowId := none
    currentSnapshotId := none }

def sampleState : DbState :=
  { table := sampleHeader
    schemas := [{ schemaId := 0
                  schemaJson := { schemaId := JVal.val 0
                                  fields := [{ id := 1, name := "amt" }] } }]
    specs := [{ specId := 0, specJson := { specId := JVal.val 0, fields := [] } }]
    sortOrders := [{ orderId := 0, orderJson := { orderId := 0 } }]
    snapshots := [], refs := [], tableStats := [], partStats := []
    metadataLog := [] }

/-- Whether a commit outcome is a success. -/
def commitOk (o : CommitOutcome) : Bool :=
  match o.result with
  | .ok _ => true
  | .error _ => false

def sampleEntry : TableEntry :=
  { ns := ["acct", "tax"], name := "t1", tableId := 1, rows := sampleState }

def sampleCatalog : CatalogState :=
  { namespaces := [["acct", "tax"]], tables := [sampleEntry], creds := []
    defaultWarehouse := none }

def sampleEnvelope : Envelope :=
  { metadataLocation := "s3://b/tenant/t1/metadata/current.metadata.json"
    metadata := buildLoadDoc sampleState none
    config := [("stale", "config")], storageCreds := none }

def sampleCache : CacheT :=
  [(cacheKey ["acct", "tax"] "t1", sampleEnvelope)]

def sampleCreateReq : CreateTableRequestM :=
  { name := "t2", location := some "s3://b/tenant/t2"
    schema := { schemaId := JVal.absent, fields := [{ id := 1, name := "amt" }] }
    partitionSpec := none, writeOrder := none, properties := []
    credentials := none }

/-- Two `add-schema` updates in one commit; the second carries a lower
maximum field id than the first. -/
def twoAddSchemas : List TableUpdate :=
  [TableUpdate.addSchema { schemaId := JVal.null, fields := [{ id := 5, name := "a" }] },
   TableUpdate.addSchema { schemaId := JVal.null, fields := [{ id := 3, name := "b" }] }]

/-- A stored partition-spec row with two fields both lacking `field-id`. -/
def specRowMissingIds : SpecRow :=
  { specId := 0
    specJson := { specId := JVal.val 0
                  fields := [{ fieldId := JVal.absent, sourceId := 1
                               name := "pf1", transform := "identity" },
                             { fieldId := JVal.absent, sourceId := 2
                               name := "pf2", transform := "identity" }] } }

/-- A stored schema row whose blob carries an explicit null `schema-id`. -/
def schemaRowNullId : SchemaRow :=
  { schemaId := 7, schemaJson := { schemaId := JVal.null, fields := [] } }

/-- The table rows used to exercise the two assembly paths. -/
def repairState : DbState :=
  { table := { sampleHeader with lastPartitionId := 10 }
    schemas := [schemaRowNullId]
    specs := [specRowMissingIds]
    sortOrders := [], snapshots := [], refs := [], tableStats := []
    partStats := [], metadataLog := [] }

/-- A metrics POST body that carries both a filter and a schema id. -/
def scanLikeWire : ReportMetricsWire :=
  { tableName := "t1", snapshotId := 42, reportType := "scan-report"
    filter := some "amt > 0", schemaId := some 0
    sequenceNumber := none, operation := none }

def credShort : CredRow :=
  { prefixCol := "p", warehouse := "s3://b/"
    config := [("region", "eu-west-1")], tableId := none }

def credLong : CredRow :=
  { prefixCol := "p", warehouse := "s3://b/tenant/"
    config := [("region", "us-west-2")], tableId := none }

/-! ## C1 -/

/-- C1: FALSIFIED ON THE CODE.  `update_table` computes the wall-clock time
only for the metadata-log entry and never writes `last_updated_ms`; after
two successive successful single-table commits (set-properties at wall
clocks 2000 and 3000 on a table last updated at 1000) the header still says
1000 and the ETag `"{uuid}-{last_updated_ms}"` is unchanged, so successive
mutations return EQUAL ETags. -/
theorem updateTable_leaves_etag_unchanged :
    commitOk (updateTableRun sampleState
      ⟨[], [TableUpdate.setProperties [("x", "1")]]⟩ 2000 "f1") = true
    ∧ commitOk (updateTableRun
        (updateTableRun sampleState
          ⟨[], [TableUpdate.setProperties [("x", "1")]]⟩ 2000 "f1").state
        ⟨[], [TableUpdate.setProperties [("y", "2")]]⟩ 3000 "f2") = true
    ∧ (updateTableRun sampleState
        ⟨[], [TableUpdate.setProperties [("x", "1")]]⟩ 2000 "f1").state.table.lastUpdatedMs
      = sampleHeader.lastUpdatedMs
    ∧ etagOf (updateTableRun
        (updateTableRun sampleState
          ⟨[], [TableUpdate.setProperties [("x", "1")]]⟩ 2000 "f1").state
        ⟨[], [TableUpdate.setProperties [("y", "2")]]⟩ 3000 "f2").state.table
      = etagOf sampleHeader
    ∧ sampleHeader.lastUpdatedMs ≠ 2000 := by
  refine ⟨rfl, rfl, rfl, rfl, by decide⟩

/-! ## C2 -/

/-- C2 counterexample: in `update_table` the header is NOT re-read between
updates.  From a table with `last_column_id = 1`, the commit
[add-schema(field id 5), add-schema(field id 3)] leaves `last_column_id = 3`
— the second update computed from the pre-commit header and clobbered the
first — whereas the re-read semantics (the claim, and what
`commit_transaction` does) yields 5. -/
theorem updateTable_stale_header_cex :
    (updateTableRun sampleState ⟨[], twoAddSchemas⟩ 5 "f").state.table.lastColumnId = 3
    ∧ (applyUpdatesReload sampleState twoAddSchemas).map
        (fun t => t.table.lastColumnId) = some 5
    ∧ (3 : Int) ≠ 5 := by
  refine ⟨rfl, rfl, by decide⟩

/-- C2 as amended: `updateTable` applies the updates sequentially, but every
update is handed the header row read before the first update, so a later
add-schema computes `last_column_id` from the PRE-COMMIT header, ignoring
the earlier one; the after-each-update re-read exists only in
`commit_transaction`, whose loop composes the two folds. -/
theorem updateTable_header_read_once (s : DbState) (A B : SchemaJson)
    (now : Int) (fid : String) :
    (updateTableRun s ⟨[], [TableUpdate.addSchema A, TableUpdate.addSchema B]⟩
        now fid).state.table.lastColumnId
      = B.fields.foldl (fun a f => if f.id > a then f.id else a) s.table.lastColumnId
    ∧ (applyUpdatesReload s [TableUpdate.addSchema A, TableUpdate.addSchema B]).map
        (fun t => t.table.lastColumnId)
      = some (B.fields.foldl (fun a f => if f.id > a then f.id else a)
          (A.fields.foldl (fun a f => if f.id > a then f.id else a)
            s.table.lastColumnId)) := by
  constructor
  · cases hA : A.schemaId.get? <;> cases hB : B.schemaId.get? <;>
      simp [updateTableRun, applyUpdatesStale, applyUpdate, hA, hB]
  · cases hA : A.schemaId.get? <;> cases hB : B.schemaId.get? <;>
      simp [applyUpdatesReload, applyUpdate, hA, hB]

/-! ## C4 -/

/-- C4: FALSIFIED ON THE CODE.  The pydantic `ReportMetricsRequest` declares
no `filter` or `schema_id` field, so the parsed model drops them and
`hasattr(request, 'filter')` is always false: a metrics POST that carries
both a filter and a schema id is still stored through the commit-report
INSERT, with null `sequence_number` and `operation` — the scan branch is
unreachable.  Exactly one row is appended. -/
theorem reportMetrics_always_commit_row :
    scanLikeWire.filter.isSome = true
    ∧ scanLikeWire.schemaId.isSome = true
    ∧ reportMetricsService [] (parseReportMetrics scanLikeWire)
      = [OperationMetricsRow.commitRow "scan-report" 42 none none]
    ∧ (hasattrReq "filter" && hasattrReq "schema_id") = false
    ∧ (reportMetricsService [] (parseReportMetrics scanLikeWire)).length = 1 := by
  refine ⟨rfl, rfl, by decide, by decide, by decide⟩

/-! ## C5 -/

/-- C5 counterexample: with the global credential rows stored short-warehouse
first (`s3://b/` before `s3://b/tenant/` — the fetch has no ORDER BY), a
table at `s3://b/tenant/t1` gets the config translated from `s3://b/`, the
FIRST match, not from the longest match `s3://b/tenant/` as the claim
states. -/
theorem getTableConfig_not_longest_cex :
    getTableConfig "s3://b/tenant/t1" [credShort, credLong]
      = [("client.region", "eu-west-1")]
    ∧ getTableConfigClaimed "s3://b/tenant/t1" [credShort, credLong]
      = [("client.region", "us-west-2")]
    ∧ getTableConfig "s3://b/tenant/t1" [credShort, credLong]
      ≠ getTableConfigClaimed "s3://b/tenant/t1" [credShort, credLong] := by
  refine ⟨by decide, by decide, by decide⟩

/-- C5 as amended: `get_table_config` walks the fetched global credential
rows in stored order and translates the FIRST one whose warehouse is a
string prefix of the table location (longest-prefix selection holds only if
the fetch order happens to put it first); when no row matches it returns
exactly the `us-east-1`/instance-credentials default. -/
theorem getTableConfig_first_match :
    (∀ (loc : String) (creds : List CredRow),
      (∀ c ∈ creds, strStartsWith loc c.warehouse = false) →
      getTableConfig loc creds
        = [("client.region", "us-east-1"), ("s3.use-instance-credentials", "true")])
    ∧ (∀ (loc : String) (pre post : List CredRow) (c : CredRow),
      (∀ d ∈ pre, strStartsWith loc d.warehouse = false) →
      strStartsWith loc c.warehouse = true →
      getTableConfig loc (pre ++ c :: post) = translateCredConfig c.config) := by
  constructor
  · intro loc creds h
    have hnone : creds.find? (fun c => strStartsWith loc c.warehouse) = none := by
      apply List.find?_eq_none.mpr
      intro x hx
      simp [h x hx]
    simp [getTableConfig, hnone, defaultTableConfig]
  · intro loc pre post c hpre hc
    induction pre with
    | nil => simp [getTableConfig, List.find?, hc]
    | cons d ds ih =>
      have hd : strStartsWith loc d.warehouse = false := hpre d (by simp)
      have ih1 := ih (fun x hx => hpre x (by simp [hx]))
      simpa [getTableConfig, List.find?, hd] using ih1

/-- Witness for the amended C5 theorem at concrete inputs. -/
theorem getTableConfig_first_match_witness :
    getTableConfig "s3://other/t1" [credShort]
      = [("client.region", "us-east-1"), ("s3.use-instance-credentials", "true")]
    ∧ getTableConfig "s3://b/tenant/t1" [credLong, credShort]
      = translateCredConfig credLong.config := by
  constructor
  · exact getTableConfig_first_match.1 "s3://other/t1" [credShort] (by decide)
  · exact getTableConfig_first_match.2 "s3://b/tenant/t1" [] [credShort] credLong
      (by decide) (by decide)

/-! ## C6 -/

/-- C6: FALSIFIED ON THE CODE for the post-commit path.  On a table with
`last_partition_id = 10` whose stored spec row has two fields lacking
`field-id`, the load path (`build_table_response`/`load_table`) assigns the
strictly increasing 11, 12 — and repairs a null `schema-id` — but the
post-commit path (`_build_table_metadata`) assigns BOTH fields the same id
11 (`last_partition_id + 1`, counter never advanced) and leaves a null
`schema-id` unrepaired, so the two read paths do not assemble alike. -/
theorem commit_path_id_repair_cex :
    (buildLoadDoc repairState none).partitionSpecs.map
        (fun sj => sj.fields.map (fun f => f.fieldId))
      = [[JVal.val 11, JVal.val 12]]
    ∧ (buildTableMetadataDoc repairState).partitionSpecs.map
        (fun sj => sj.fields.map (fun f => f.fieldId))
      = [[JVal.val 11, JVal.val 11]]
    ∧ (buildLoadDoc repairState none).schemas.map (fun sj => sj.schemaId)
      = [JVal.val 7]
    ∧ (buildTableMetadataDoc repairState).schemas.map (fun sj => sj.schemaId)
      = [JVal.null]
    ∧ buildLoadDoc repairState none ≠ buildTableMetadataDoc repairState := by
  refine ⟨by decide, by decide, by decide, by decide, by decide⟩

/-! ## C3 -/

/-- A list of updates containing an unrecognized action always makes the
sequential application raise, wherever the unknown element sits. -/
theorem applyUpdatesStale_none_of_unknown (hdr : TableRec) :
    ∀ (us : List TableUpdate) (s : DbState) (a : String),
      TableUpdate.unknownAction a ∈ us → applyUpdatesStale hdr s us = none := by
  intro us
  induction us with
  | nil => intro s a h; simp at h
  | cons u rest ih =>
    intro s a h
    rcases List.mem_cons.mp h with h1 | h2
    · subst h1
      simp [applyUpdatesStale, applyUpdate]
    · cases hu : applyUpdate hdr s u with
      | none => simp [applyUpdatesStale, hu]
      | some s1 =>
        simp only [applyUpdatesStale, hu]
        exact ih s1 a h2

/-- C3: commit atomicity.  `update_table` runs inside one backend
transaction, so whenever the call fails — in particular when any update's
action string is unrecognized, or any requirement's type string is
unrecognized — the stored state is exactly the initial one: no earlier
update of the commit has any visible effect. -/
theorem commit_rollback_atomicity (s : DbState) (req : CommitRequestM)
    (now : Int) (fid : String) :
    (commitOk (updateTableRun s req now fid) = false →
      (updateTableRun s req now fid).state = s)
    ∧ (∀ a, TableUpdate.unknownAction a ∈ req.updates →
        commitOk (updateTableRun s req now fid) = false)
    ∧ (∀ ty, TableRequirement.unknownReq ty ∈ req.requirements →
        commitOk (updateTableRun s req now fid) = false) := by
  cases hfind : req.requirements.find?
      (fun r => !(validateRequirement s s.table r)) with
  | some r =>
    refine ⟨fun _ => ?_, fun a _ => ?_, fun ty _ => ?_⟩ <;>
      simp [updateTableRun, hfind, commitOk]
  | none =>
    cases happ : applyUpdatesStale s.table s req.updates with
    | none =>
      refine ⟨fun _ => ?_, fun a _ => ?_, fun ty _ => ?_⟩ <;>
        simp [updateTableRun, hfind, happ, commitOk]
    | some s1 =>
      refine ⟨?_, ?_, ?_⟩
      · intro h
        simp [updateTableRun, hfind, happ, commitOk] at h
      · intro a hmem
        have := applyUpdatesStale_none_of_unknown s.table req.updates s a hmem
        rw [this] at happ
        cases happ
      · intro ty hmem
        have hall := List.find?_eq_none.mp hfind _ hmem
        simp [validateRequirement] at hall

/-- Witness for C3: a commit whose second update is an unrecognized action
leaves the stored state untouched. -/
theorem commit_rollback_atomicity_witness :
    (updateTableRun sampleState
      ⟨[], [TableUpdate.setProperties [("x", "1")],
            TableUpdate.unknownAction "frobnicate"]⟩ 7 "f").state
      = sampleState :=
  (commit_rollback_atomicity sampleState
    ⟨[], [TableUpdate.setProperties [("x", "1")],
          TableUpdate.unknownAction "frobnicate"]⟩ 7 "f").1 (by decide)

/-! ## C7 -/

/-- C7: conditional GET with a matching `If-None-Match`.  When the
process-local cache holds an envelope for the (namespace, table) key, the
endpoint answers 200 with the cached body whose `config` and
`storage-credentials` are replaced by freshly resolved values (the latter
null when the resolved list is empty, as in the source); only when the
cache has no entry does it answer a bodyless 304. -/
theorem conditional_get_cache_overlay (c : CatalogState) (cache : CacheT)
    (ns : List String) (name : String) (sp : Option String) (e : TableEntry)
    (hfind : findTable c ns name = some e) :
    (∀ env, cacheLookup cache (cacheKey ns name) = some env →
      loadTableEndpoint c cache ns name sp (some (etagOf e.rows.table)) =
        (.ok (etagOf e.rows.table)
          { env with
            config := tableConfigOf c e
            storageCreds := if (storageCredsOf c e).isEmpty then none
                            else some (storageCredsOf c e) }, cache))
    ∧ (cacheLookup cache (cacheKey ns name) = none →
      loadTableEndpoint c cache ns name sp (some (etagOf e.rows.table)) =
        (.notModified, cache)) := by
  constructor
  · intro env henv
    simp [loadTableEndpoint, getTableBasicInfo, hfind, henv]
  · intro hnone
    simp [loadTableEndpoint, getTableBasicInfo, hfind, hnone]

/-- Witness for C7 at a concrete catalog and warm cache. -/
theorem conditional_get_cache_overlay_witness :
    loadTableEndpoint sampleCatalog sampleCache ["acct", "tax"] "t1" none
        (some (etagOf sampleState.table)) =
      (.ok (etagOf sampleState.table)
        { sampleEnvelope with
          config := tableConfigOf sampleCatalog sampleEntry
          storageCreds := if (storageCredsOf sampleCatalog sampleEntry).isEmpty
                          then none
                          else some (storageCredsOf sampleCatalog sampleEntry) },
       sampleCache) :=
  (conditional_get_cache_overlay sampleCatalog sampleCache ["acct", "tax"] "t1"
    none sampleEntry rfl).1 sampleEnvelope rfl

/-! ## C9 -/

/-- Folding `max` over a list: the seed never decreases, every element is
dominated, and the result is the seed or an element. -/
theorem foldl_int_max_spec (l : List Int) :
    ∀ a : Int, a ≤ l.foldl max a ∧ (∀ x ∈ l, x ≤ l.foldl max a)
      ∧ (l.foldl max a = a ∨ l.foldl max a ∈ l) := by
  induction l with
  | nil => intro a; simp
  | cons b bs ih =>
    intro a
    obtain ⟨h1, h2, h3⟩ := ih (max a b)
    refine ⟨le_trans (le_max_left a b) h1, ?_, ?_⟩
    · intro x hx
      rcases List.mem_cons.mp hx with hxb | hxbs
      · rw [hxb]
        exact le_trans (le_max_right a b) h1
      · exact h2 x hxbs
    · rcases h3 with he | hm
      · rcases max_choice a b with hab | hab
        · left
          simpa [List.foldl_cons, hab] using he.trans hab
        · right
          simp only [List.foldl_cons]
          rw [he, hab]
          exact List.mem_cons_self b bs
      · right
        exact List.mem_cons_of_mem b hm

/-- The step `add-snapshot` performs on `last_sequence_number`. -/
def lsnStep (a : Int) (sn : SnapJson) : Int :=
  match sn.sequenceNumber with
  | some v => max a v
  | none => a

/-- Applying a list of `add-snapshot` updates always succeeds, and the final
`last_sequence_number` is the fold of `GREATEST` over the supplied sequence
numbers. -/
theorem addSnapshots_lsn (hdr : TableRec) :
    ∀ (snaps : List SnapJson) (s : DbState),
      ∃ s1, applyUpdatesStale hdr s (snaps.map TableUpdate.addSnapshot) = some s1
        ∧ s1.table.lastSequenceNumber
          = snaps.foldl lsnStep s.table.lastSequenceNumber := by
  intro snaps
  induction snaps with
  | nil => intro s; exact ⟨s, rfl, rfl⟩
  | cons sn rest ih =>
    intro s
    obtain ⟨s1, h1, h2⟩ := ih
      { s with
        snapshots := s.snapshots ++ [snapRowOf sn]
        table := { s.table with
          currentSnapshotId := some sn.snapshotId
          lastSequenceNumber := lsnStep s.table.lastSequenceNumber sn } }
    refine ⟨s1, ?_, ?_⟩
    · simp only [List.map_cons, applyUpdatesStale, applyUpdate]
      cases hsn : sn.sequenceNumber <;>
        simpa [lsnStep, hsn] using h1
    · simpa using h2

/-- The seq-number fold over snapshots equals the `max` fold over the
extracted numbers when every snapshot carries one. -/
theorem foldl_lsnStep_eq_max :
    ∀ (snaps : List SnapJson) (seqs : List Int) (a : Int),
      snaps.map (fun sn => sn.sequenceNumber) = seqs.map some →
      snaps.foldl lsnStep a = seqs.foldl max a := by
  intro snaps
  induction snaps with
  | nil =>
    intro seqs a h
    cases seqs with
    | nil => rfl
    | cons q qs => simp at h
  | cons sn rest ih =>
    intro seqs a h
    cases seqs with
    | nil => simp at h
    | cons q qs =>
      simp only [List.map_cons, List.cons.injEq] at h
      obtain ⟨hq, hqs⟩ := h
      simp only [List.foldl_cons, lsnStep, hq]
      exact ih qs (max a q) hqs

/-- C9: `add-snapshot` sequence handling.  Each `add-snapshot` inserts the
snapshot row, points `current_snapshot_id` at the new snapshot and sets
`last_sequence_number` to `max(current, new)` (hence never decreases it);
and from a freshly created table (whose `last_sequence_number` is 0), after
any nonempty sequence of `add-snapshot` updates carrying nonnegative
sequence numbers, `last_sequence_number` is exactly the maximum sequence
number among the inserted snapshots. -/
theorem addSnapshot_sequence_monotone :
    (∀ (hdr : TableRec) (s : DbState) (snap : SnapJson) (v : Int),
      snap.sequenceNumber = some v →
      ∃ s1, applyUpdate hdr s (TableUpdate.addSnapshot snap) = some s1
        ∧ s1.table.currentSnapshotId = some snap.snapshotId
        ∧ s1.table.lastSequenceNumber = max s.table.lastSequenceNumber v
        ∧ s.table.lastSequenceNumber ≤ s1.table.lastSequenceNumber
        ∧ s1.snapshots = s.snapshots ++ [snapRowOf snap])
    ∧ (∀ (hdr : TableRec) (s : DbState) (snaps : List SnapJson) (seqs : List Int),
      s.table.lastSequenceNumber = 0 →
      snaps.map (fun sn => sn.sequenceNumber) = seqs.map some →
      (∀ q ∈ seqs, 0 ≤ q) → seqs ≠ [] →
      ∃ s1, applyUpdatesStale hdr s (snaps.map TableUpdate.addSnapshot) = some s1
        ∧ s1.table.lastSequenceNumber ∈ seqs
        ∧ ∀ q ∈ seqs, q ≤ s1.table.lastSequenceNumber) := by
  constructor
  · intro hdr s snap v hv
    refine ⟨{ s with
      snapshots := s.snapshots ++ [snapRowOf snap]
      table := { s.table with
        currentSnapshotId := some snap.snapshotId
        lastSequenceNumber := max s.table.lastSequenceNumber v } },
      ?_, rfl, rfl, le_max_left _ _, rfl⟩
    simp [applyUpdate, hv]
  · intro hdr s snaps seqs hinit hmap hpos hne
    obtain ⟨s1, h1, h2⟩ := addSnapshots_lsn hdr snaps s
    rw [hinit, foldl_lsnStep_eq_max snaps seqs 0 hmap] at h2
    obtain ⟨hseed, hub, hor⟩ := foldl_int_max_spec seqs 0
    refine ⟨s1, h1, ?_, fun q hq => h2 ▸ hub q hq⟩
    rcases hor with h0 | hm
    · cases seqs with
      | nil => exact absurd rfl hne
      | cons q qs =>
        have hq0 : q ≤ (0 : Int) := h0 ▸ hub q (List.mem_cons_self q qs)
        have hq0' : (0 : Int) ≤ q := hpos q (List.mem_cons_self q qs)
        have : q = (0 : Int) := le_antisymm hq0 hq0'
        rw [h2, h0, ← this]
        exact List.mem_cons_self q qs
    · exact h2 ▸ hm

/-- Witness for C9: two snapshots with sequence numbers 3 then 1 leave
`last_sequence_number = 3`. -/
theorem addSnapshot_sequence_monotone_witness :
    (applyUpdatesStale sampleHeader sampleState
        ([{ snapshotId := 10, parentSnapshotId := none, sequenceNumber := some 3
            timestampMs := 1, manifestList := "m1", summaryOperation := "append"
            schemaId := none },
          { snapshotId := 11, parentSnapshotId := some 10, sequenceNumber := some 1
            timestampMs := 2, manifestList := "m2", summaryOperation := "append"
            schemaId := none }].map TableUpdate.addSnapshot)).map
      (fun t => t.table.lastSequenceNumber) = some 3 := by
  obtain ⟨s1, h1, h2, h3⟩ := addSnapshot_sequence_monotone.2 sampleHeader sampleState
    [{ snapshotId := 10, parentSnapshotId := none, sequenceNumber := some 3
       timestampMs := 1, manifestList := "m1", summaryOperation := "append"
       schemaId := none },
     { snapshotId := 11, parentSnapshotId := some 10, sequenceNumber := some 1
       timestampMs := 2, manifestList := "m2", summaryOperation := "append"
       schemaId := none }] [3, 1] rfl rfl (by decide) (by decide)
  rw [h1]
  have h31 : s1.table.lastSequenceNumber = 3 := by
    have hge := h3 3 (by decide)
    rcases List.mem_cons.mp h2 with h | h
    · exact h
    · rcases List.mem_singleton.mp h with h'
      omega
  simp [h31]

/-! ## C10 -/

/-- C10: credential vending.  The service `load_table` ignores the
delegation header entirely — its result is the same for any header value —
and every successful load result carries `storage-credentials` resolved for
the table (as a present list).  `create_table`, by contrast, includes
storage credentials in its response exactly when the header is truthy. -/
theorem credential_vending_load_vs_create :
    (∀ (c : CatalogState) (ns : List String) (name : String)
       (sp hdr inm : Option String),
      loadTableService c ns name sp hdr inm
        = loadTableService c ns name sp none inm)
    ∧ (∀ (c : CatalogState) (ns : List String) (name : String)
       (sp hdr inm : Option String) (e : TableEntry) (env : Envelope)
       (etag : String),
      findTable c ns name = some e →
      loadTableService c ns name sp hdr inm = some (some (env, etag)) →
      env.storageCreds = some (storageCredsOf c e))
    ∧ (∀ (c : CatalogState) (ns : List String) (request : CreateTableRequestM)
       (hdr : Option String) (uuid : String) (now : Int) (tid : Nat)
       (muuid : String) (c1 : CatalogState) (env : Envelope),
      createTable c ns request hdr uuid now tid muuid = .ok (c1, env) →
      env.storageCreds.isSome = hdrTruthy hdr) := by
  refine ⟨fun _ _ _ _ _ _ => rfl, ?_, ?_⟩
  · intro c ns name sp hdr inm e env etag hfind hload
    simp only [loadTableService, hfind] at hload
    by_cases hmatch : (inm == some (etagOf e.rows.table)) = true
    · rw [if_pos hmatch] at hload
      cases hload
    · rw [if_neg hmatch] at hload
      simp only [Option.some.injEq, Prod.mk.injEq] at hload
      obtain ⟨henv, -⟩ := hload
      rw [← henv]
  · intro c ns request hdr uuid now tid muuid c1 env hcreate
    rw [createTable] at hcreate
    split at hcreate
    · cases hcreate
    · split at hcreate
      · cases hcreate
      · simp only [Except.ok.injEq, Prod.mk.injEq] at hcreate
        obtain ⟨-, henv⟩ := hcreate
        rw [← henv]
        cases hh : hdrTruthy hdr <;> simp [hh]

/-- Witness for C10: on the sample catalog, a load with a delegation header
equals the load without one and carries the resolved credentials; a create
without the header carries none. -/
theorem credential_vending_load_vs_create_witness :
    (loadTableService sampleCatalog ["acct", "tax"] "t1" none (some "vended") none
      = loadTableService sampleCatalog ["acct", "tax"] "t1" none none none)
    ∧ (loadTableService sampleCatalog ["acct", "tax"] "t1" none (some "vended")
        none).map (fun o => o.map (fun p => p.1.storageCreds))
      = some (some (some (storageCredsOf sampleCatalog sampleEntry)))
    ∧ (createTable sampleCatalog ["acct", "tax"] sampleCreateReq none "u2" 5 2
        "m2").toOption.map (fun p => p.2.storageCreds.isSome) = some false := by
  refine ⟨credential_vending_load_vs_create.1 sampleCatalog ["acct", "tax"] "t1"
    none (some "vended") none, ?_, ?_⟩
  · cases hr : loadTableService sampleCatalog ["acct", "tax"] "t1" none
        (some "vended") none with
    | none => exact absurd hr (by decide)
    | some r =>
      cases r with
      | none => exact absurd hr (by decide)
      | some p =>
        have hsc := credential_vending_load_vs_create.2.1 sampleCatalog
          ["acct", "tax"] "t1" none (some "vended") none sampleEntry p.1 p.2
          rfl (by rw [hr])
        simp [hsc]
  · cases hc : createTable sampleCatalog ["acct", "tax"] sampleCreateReq none
        "u2" 5 2 "m2" with
    | error e =>
      have hnone : (createTable sampleCatalog ["acct", "tax"] sampleCreateReq
          none "u2" 5 2 "m2").toOption = none := by
        rw [hc]; rfl
      exact absurd hnone (by decide)
    | ok p =>
      have hsc := credential_vending_load_vs_create.2.2 sampleCatalog
        ["acct", "tax"] sampleCreateReq none "u2" 5 2 "m2" p.1 p.2
        (by rw [hc])
      simp [Except.toOption, hsc, hdrTruthy]

/-! ## C8 -/

/-- Dropping key-`k` entries does not change whether some other key `k'` is
present. -/
theorem any_key_filter_ne (props : List (String × String)) (k k' : String)
    (h : k' ≠ k) :
    ((props.filter (fun q => q.1 != k)).any (fun q => q.1 == k'))
      = props.any (fun q => q.1 == k') := by
  rw [List.any_filter, Bool.eq_iff_iff]
  simp only [List.any_eq_true, Bool.and_eq_true, bne_iff_ne, beq_iff_eq]
  constructor
  · rintro ⟨a, ha, -, hk'⟩
    exact ⟨a, ha, hk'⟩
  · rintro ⟨a, ha, hk'⟩
    exact ⟨a, ha, by rw [hk']; exact h, hk'⟩

/-- After the removal loop, the surviving properties are exactly those whose
key is not in the removal list. -/
theorem processRemovals_fst :
    ∀ (ks : List String) (props : List (String × String)),
      (processRemovals props ks).1
        = props.filter (fun q => !(ks.contains q.1)) := by
  intro ks
  induction ks with
  | nil =>
    intro props
    simp [processRemovals]
  | cons k ks ih =>
    intro props
    by_cases hp : props.any (fun q => q.1 == k) = true
    · simp only [processRemovals, if_pos hp]
      rw [ih, List.filter_filter]
      apply List.filter_congr
      intro q _
      simp only [List.contains_cons, Bool.not_or, bne]
      rw [Bool.and_comm]
    · simp only [processRemovals, if_neg hp]
      rw [ih props]
      apply List.filter_congr
      intro q hq
      have hqk : (q.1 == k) = false := by
        cases hqkb : (q.1 == k) with
        | false => rfl
        | true => exact absurd (List.any_eq_true.mpr ⟨q, hq, hqkb⟩) hp
      simp only [List.contains_cons, hqk, Bool.false_or]

/-- The `removed` report lists, in walk order, exactly the removal keys that
were present in the stored properties (removals assumed distinct, as the
claim reads them). -/
theorem processRemovals_removed :
    ∀ (ks : List String) (props : List (String × String)), ks.Nodup →
      (processRemovals props ks).2.1
        = ks.filter (fun k => props.any (fun q => q.1 == k)) := by
  intro ks
  induction ks with
  | nil =>
    intro props _
    simp [processRemovals]
  | cons k ks ih =>
    intro props hnd
    obtain ⟨hknotin, hnd'⟩ := List.nodup_cons.mp hnd
    by_cases hp : props.any (fun q => q.1 == k) = true
    · simp only [processRemovals, if_pos hp]
      rw [List.filter_cons, if_pos hp, ih _ hnd']
      have h' : ∀ k' ∈ ks,
          ((props.filter (fun q => q.1 != k)).any (fun q => q.1 == k'))
            = props.any (fun q => q.1 == k') := by
        intro k' hk'
        exact any_key_filter_ne props k k' (fun he => hknotin (he ▸ hk'))
      simpa using List.filter_congr h'
    · simp only [processRemovals, if_neg hp]
      rw [List.filter_cons, if_neg hp, ih _ hnd']

/-- The `missing` report lists exactly the removal keys that were absent. -/
theorem processRemovals_missing :
    ∀ (ks : List String) (props : List (String × String)), ks.Nodup →
      (processRemovals props ks).2.2
        = ks.filter (fun k => !(props.any (fun q => q.1 == k))) := by
  intro ks
  induction ks with
  | nil =>
    intro props _
    simp [processRemovals]
  | cons k ks ih =>
    intro props hnd
    obtain ⟨hknotin, hnd'⟩ := List.nodup_cons.mp hnd
    by_cases hp : props.any (fun q => q.1 == k) = true
    · simp only [processRemovals, if_pos hp]
      rw [List.filter_cons, if_neg (by simp [hp]), ih _ hnd']
      have h' : ∀ k' ∈ ks,
          (!((props.filter (fun q => q.1 != k)).any (fun q => q.1 == k')))
            = !(props.any (fun q => q.1 == k')) := by
        intro k' hk'
        rw [any_key_filter_ne props k k' (fun he => hknotin (he ▸ hk'))]
      simpa using List.filter_congr h'
    · simp only [processRemovals, if_neg hp]
      have hfalse : props.any (fun q => q.1 == k) = false := by
        cases hX : props.any (fun q => q.1 == k) with
        | false => rfl
        | true => exact absurd hX hp
      rw [List.filter_cons, if_pos (by rw [hfalse]; rfl), ih _ hnd']

/-- The conflict test of `update_properties` as a proposition. -/
theorem conflict_any_iff (removals : List String)
    (updates : List (String × String)) :
    removals.any (fun k => updates.any (fun kv => kv.1 == k)) = true
      ↔ ∃ k ∈ removals, k ∈ updates.map Prod.fst := by
  simp only [List.any_eq_true, beq_iff_eq, List.mem_map]

/-- C8: `updateProperties` on an existing namespace.  It fails with the
422-mapped conflict error exactly when some key appears both in the removals
list and among the update keys — leaving the stored rows unchanged —
and otherwise applies all removals and then all updates to the stored
properties, reporting `updated` = the update keys, `removed` = the removal
keys that were present, and `missing` = the removal keys that were not
(omitted when empty, as the source sets the field only then). -/
theorem updateProperties_spec (nss : List NamespaceRow) (levels : List String)
    (removals : List String) (updates : List (String × String))
    (row : NamespaceRow)
    (hfind : nss.find? (fun r => r.levels == levels) = some row)
    (hnodup : removals.Nodup) :
    ((∃ k ∈ removals, k ∈ updates.map Prod.fst) ↔
      (updateNamespaceProperties nss levels removals updates).2
        = .error .conflict)
    ∧ ((updateNamespaceProperties nss levels removals updates).2
        = .error .conflict →
      (updateNamespaceProperties nss levels removals updates).1 = nss
        ∧ nsErrStatus .conflict = 422)
    ∧ ((¬ ∃ k ∈ removals, k ∈ updates.map Prod.fst) →
      (updateNamespaceProperties nss levels removals updates).2
        = .ok { updated := updates.map Prod.fst
                removed := (removals.filter
                  (fun k => row.properties.any (fun q => q.1 == k)))
                missing := (if (removals.filter
                      (fun k => !(row.properties.any (fun q => q.1 == k)))).isEmpty
                  then none
                  else some (removals.filter
                    (fun k => !(row.properties.any (fun q => q.1 == k))))) }
      ∧ (updateNamespaceProperties nss levels removals updates).1
        = nss.map (fun r => if r.levels == levels then
            { r with properties := (updates.foldl
                (fun acc kv => dictInsert acc kv.1 kv.2)
                (row.properties.filter (fun q => !(removals.contains q.1)))) }
          else r)) := by
  by_cases hc : removals.any (fun k => updates.any (fun kv => kv.1 == k)) = true
  · refine ⟨?_, ?_, ?_⟩
    · rw [← conflict_any_iff]
      simp [updateNamespaceProperties, hfind, hc]
    · intro _
      refine ⟨?_, rfl⟩
      simp [updateNamespaceProperties, hfind, hc]
    · intro hno
      exact absurd ((conflict_any_iff removals updates).mp hc) hno
  · refine ⟨?_, ?_, ?_⟩
    · rw [← conflict_any_iff]
      constructor
      · intro habs
        exact absurd habs hc
      · intro heq
        exfalso
        simp [updateNamespaceProperties, hfind, if_neg hc] at heq
    · intro habs
      exact absurd habs (by
        simp [updateNamespaceProperties, hfind, if_neg hc])
    · intro _
      constructor
      · simp only [updateNamespaceProperties, hfind, if_neg hc,
          Except.ok.injEq]
        rw [processRemovals_removed removals row.properties hnodup,
          processRemovals_missing removals row.properties hnodup]
      · simp only [updateNamespaceProperties, hfind, if_neg hc]
        rw [processRemovals_fst removals row.properties]

def nsRowFix : NamespaceRow :=
  { levels := ["n"], properties := [("a", "1"), ("b", "2")] }

/-- Witness for C8 on a concrete namespace: removing `a` (present) and `c`
(absent) while setting `d`. -/
theorem updateProperties_spec_witness :
    (updateNamespaceProperties [nsRowFix] ["n"] ["a", "c"] [("d", "4")]).2
      = .ok { updated := ["d"], removed := ["a"], missing := some ["c"] }
    ∧ (updateNamespaceProperties [nsRowFix] ["n"] ["a", "c"] [("d", "4")]).1
      = [{ levels := ["n"], properties := [("b", "2"), ("d", "4")] }] := by
  have h := (updateProperties_spec [nsRowFix] ["n"] ["a", "c"] [("d", "4")]
    nsRowFix rfl (by decide)).2.2 (by decide)
  exact ⟨by rw [h.1]; rfl, by rw [h.2]; rfl⟩

end Catalog
